import Mathlib

/-!
Verification development for the live-capture subsystem of the repository:
the audio capture quantizer (`audio-recorder.ts`), the playback scheduler and
decoder (`audio-streamer.ts`), the duplex session client (`live-client.ts`),
and the capture workflow controller (`live-capture.tsx`).

Machine arithmetic is embedded over `ℚ`/`ℤ`/`ℕ` with explicit wrapping where
the JavaScript semantics wraps; strings are embedded as Lean `String`s and
`List Char`; fallible operations return `Except`.
-/

namespace PCM

/-- JavaScript truncation toward zero of a rational number, as performed by
the integral-conversion step of `ToInt16`: `⌊q⌋` for nonnegative `q`,
`⌈q⌉` for negative `q`. -/
def truncQ (q : ℚ) : ℤ :=
  if 0 ≤ q then ⌊q⌋ else ⌈q⌉

/-- JavaScript `ToInt16`, applied on assignment into an `Int16Array`:
truncate toward zero, reduce modulo 2^16, reinterpret as a signed 16-bit
value. -/
def toInt16 (q : ℚ) : ℤ :=
  if 32768 ≤ truncQ q % 65536 then truncQ q % 65536 - 65536 else truncQ q % 65536

/-- The clamped sample `s = Math.max(-1, Math.min(1, inputData[i]))` of
`audio-recorder.ts` line 74. -/
def clampSample (x : ℚ) : ℚ :=
  max (-1) (min 1 x)

/-- One sample of the capture quantizer of `AudioRecorder`
(`audio-recorder.ts`, `onaudioprocess` line 75): scale the clamped sample by
`0x8000 = 32768` when negative and by `0x7fff = 32767` otherwise, and store
into an `Int16Array` (which applies `ToInt16`). -/
def quantizeSample (x : ℚ) : ℤ :=
  toInt16 (if clampSample x < 0 then clampSample x * 32768 else clampSample x * 32767)

/-- The float-to-int16 conversion loop of `onaudioprocess`
(`audio-recorder.ts` lines 72-76), over a whole input buffer. -/
def onaudioprocessInt16 (inputData : List ℚ) : List ℤ :=
  inputData.map quantizeSample

/-- The quantizer as the specification words it (a second definition, written
from the spec for comparison with the code-derived `quantizeSample`):
`round(clamp(x,-1,1) * 32767)` for nonnegative clamped values and
`round(clamp(x,-1,1) * 32768)` for negative ones. -/
def specRoundQuantizeSample (x : ℚ) : ℤ :=
  if clampSample x < 0 then round (clampSample x * 32768)
  else round (clampSample x * 32767)

/-- The playback dequantizer of `AudioStreamer.addPCM16`
(`audio-streamer.ts` line 56): divide the int16 sample by 32768. -/
def dequantizeSample (i : ℤ) : ℚ :=
  (i : ℚ) / 32768

theorem truncQ_le_of_le {q : ℚ} {n : ℤ} (hn : 0 ≤ n) (h : q ≤ (n : ℚ)) :
    truncQ q ≤ n := by
  unfold truncQ
  split_ifs with hq
  · calc ⌊q⌋ ≤ ⌊(n : ℚ)⌋ := Int.floor_le_floor h
      _ = n := Int.floor_intCast n
  · calc ⌈q⌉ ≤ 0 := Int.ceil_le.mpr (by push_cast; exact le_of_not_le hq)
      _ ≤ n := hn

theorem le_truncQ_of_le {q : ℚ} {n : ℤ} (hn : n ≤ 0) (h : (n : ℚ) ≤ q) :
    n ≤ truncQ q := by
  unfold truncQ
  split_ifs with hq
  · calc n ≤ 0 := hn
      _ ≤ ⌊q⌋ := Int.floor_nonneg.mpr hq
  · calc n = ⌈(n : ℚ)⌉ := (Int.ceil_intCast n).symm
      _ ≤ ⌈q⌉ := Int.ceil_le_ceil h

/-- On values whose truncation lies in the signed 16-bit range, `ToInt16`
is exactly truncation toward zero (the wrap never fires). -/
theorem toInt16_eq_truncQ {q : ℚ} (h1 : -32768 ≤ truncQ q)
    (h2 : truncQ q ≤ 32767) : toInt16 q = truncQ q := by
  unfold toInt16
  split_ifs <;> omega

/-- C5 (counterexample): at input sample `x = 1/2` the recorder stores
`16383` — the `Int16Array` assignment truncates `0.5 * 32767 = 16383.5`
toward zero — while the claimed formula `round(clamp(x,-1,1) * 32767)`
yields `16384`. -/
theorem quantize_round_counterexample :
    onaudioprocessInt16 [1/2] = [16383] ∧
    specRoundQuantizeSample (1/2) = 16384 ∧
    onaudioprocessInt16 [1/2] ≠ [specRoundQuantizeSample (1/2)] := by
  have hc : clampSample (1/2 : ℚ) = 1/2 := by norm_num [clampSample]
  have h1 : quantizeSample (1/2) = 16383 := by
    rw [quantizeSample, hc]
    norm_num [toInt16, truncQ]
  have h2 : specRoundQuantizeSample (1/2) = 16384 := by
    rw [specRoundQuantizeSample, hc]
    norm_num [round_eq]
  refine ⟨?_, h2, ?_⟩
  · unfold onaudioprocessInt16
    rw [List.map_cons, List.map_nil, h1]
  · unfold onaudioprocessInt16
    rw [List.map_cons, List.map_nil, h1, h2]
    decide

/-- C5 (amended): for every float32 input sample `x`, the recorder emits the
16-bit integer `trunc(clamp(x,-1,1) * 32767)` (truncation toward zero, not
rounding) when the clamped value is non-negative, and
`trunc(clamp(x,-1,1) * 32768)` when it is negative. -/
theorem quantizeSample_eq_trunc (x : ℚ) :
    quantizeSample x =
      if clampSample x < 0 then truncQ (clampSample x * 32768)
      else truncQ (clampSample x * 32767) := by
  have hs1 : (-1 : ℚ) ≤ clampSample x := le_max_left _ _
  have hs2 : clampSample x ≤ 1 := max_le (by norm_num) (min_le_left _ _)
  unfold quantizeSample
  split_ifs with h
  · apply toInt16_eq_truncQ
    · exact le_truncQ_of_le (by norm_num) (by push_cast; nlinarith)
    · exact truncQ_le_of_le (by norm_num) (by push_cast; nlinarith)
  · apply toInt16_eq_truncQ
    · exact le_truncQ_of_le (by norm_num) (by push_cast; nlinarith)
    · exact truncQ_le_of_le (by norm_num) (by push_cast; nlinarith)

theorem quantizeSample_one : quantizeSample 1 = 32767 := by
  have hc : clampSample (1 : ℚ) = 1 := by norm_num [clampSample]
  rw [quantizeSample, hc]
  norm_num [toInt16, truncQ]

theorem quantizeSample_neg_one : quantizeSample (-1) = -32768 := by
  have hc : clampSample (-1 : ℚ) = -1 := by norm_num [clampSample]
  have hceil : ⌈(-32768 : ℚ)⌉ = -32768 := by
    rw [show (-32768 : ℚ) = ((-32768 : ℤ) : ℚ) by norm_num, Int.ceil_intCast]
  rw [quantizeSample, hc]
  norm_num [toInt16, truncQ, hceil]

theorem quantizeSample_zero : quantizeSample 0 = 0 := by
  have hc : clampSample (0 : ℚ) = 0 := by norm_num [clampSample]
  rw [quantizeSample, hc]
  norm_num [toInt16, truncQ]

/-- C6: passing `1.0` and `-1.0` through the capture quantizer and then the
playback dequantizer reproduces each value to within one quantization step
`1/32768`, and `0.0` round-trips to exactly `0.0`. -/
theorem pcm16_roundtrip :
    |dequantizeSample (quantizeSample 1) - 1| ≤ 1/32768 ∧
    |dequantizeSample (quantizeSample (-1)) - (-1)| ≤ 1/32768 ∧
    dequantizeSample (quantizeSample 0) = 0 := by
  rw [quantizeSample_one, quantizeSample_neg_one, quantizeSample_zero]
  norm_num [dequantizeSample, abs_le]

end PCM

namespace Streamer

/-- ASCII whitespace stripped by the forgiving-base64 decode performed by
`atob` (TAB, LF, FF, CR, SPACE). -/
def isB64Whitespace (c : Char) : Bool :=
  c == '\t' || c == '\n' || c == '\x0c' || c == '\r' || c == ' '

/-- Index of a character in the base64 alphabet; `none` for a character
outside the alphabet (which makes `atob` throw `InvalidCharacterError`). -/
def b64Index (c : Char) : Option ℕ :=
  if 'A' ≤ c ∧ c ≤ 'Z' then some (c.toNat - 65)
  else if 'a' ≤ c ∧ c ≤ 'z' then some (c.toNat - 97 + 26)
  else if '0' ≤ c ∧ c ≤ '9' then some (c.toNat - 48 + 52)
  else if c = '+' then some 62
  else if c = '/' then some 63
  else none

/-- Reassemble decoded 6-bit groups into bytes: each full group of four
sextets yields three bytes, a final group of two or three sextets yields one
or two bytes. -/
def decodeGroups : List ℕ → List ℕ
  | a :: b :: c :: d :: rest =>
      (a * 4 + b / 16) :: ((b % 16) * 16 + c / 4) :: ((c % 4) * 64 + d) ::
        decodeGroups rest
  | [a, b] => [a * 4 + b / 16]
  | [a, b, c] => [a * 4 + b / 16, (b % 16) * 16 + c / 4]
  | _ => []

/-- Strip up to two trailing `=` padding characters, only when the length is
a multiple of four (forgiving-base64). -/
def stripB64Padding (l : List Char) : List Char :=
  if l.length % 4 = 0 then
    match l.reverse with
    | '=' :: '=' :: rest => rest.reverse
    | '=' :: rest => rest.reverse
    | _ => l
  else l

/-- JavaScript `atob` (forgiving-base64 decode): strip ASCII whitespace,
strip permitted `=` padding, reject a remaining length of 1 mod 4 or any
character outside the base64 alphabet, and otherwise produce the byte
sequence. Failure is the `InvalidCharacterError` that `atob` throws. -/
def atob (s : String) : Except String (List ℕ) :=
  let stripped := stripB64Padding (s.data.filter (fun c => !(isB64Whitespace c)))
  if stripped.length % 4 = 1 then Except.error "InvalidCharacterError"
  else
    match stripped.mapM b64Index with
    | none => Except.error "InvalidCharacterError"
    | some sextets => Except.ok (decodeGroups sextets)

/-- Reinterpret a byte sequence as little-endian signed 16-bit samples, as
`new Int16Array(bytes.buffer)` does. Bytes produced by `atob` are `< 256`,
so `lo + 256 * hi` is the 16-bit word. -/
def toInt16List : List ℕ → List ℤ
  | lo :: hi :: rest =>
      (if 32768 ≤ lo + 256 * hi then ((lo + 256 * hi : ℕ) : ℤ) - 65536
       else ((lo + 256 * hi : ℕ) : ℤ)) :: toInt16List rest
  | _ => []

/-- `new Int16Array(bytes.buffer)` (`audio-streamer.ts` line 53): throws a
`RangeError` when the byte length is not a multiple of two. -/
def bytesToInt16 (bytes : List ℕ) : Except String (List ℤ) :=
  if bytes.length % 2 = 0 then Except.ok (toInt16List bytes)
  else Except.error "RangeError"

/-- The mutable fields of an `AudioStreamer` instance that the playback
scheduling touches (`audio-streamer.ts` lines 13-15, 17): the queue of
decoded buffers, the `isPlaying` flag, the next available start time, and
the construction-time sample rate. A fresh instance has an empty queue,
`isPlaying = false` and `nextTime = 0`. -/
structure StreamerState where
  queue : List (List ℚ)
  isPlaying : Bool
  nextTime : ℚ
  sampleRate : ℚ

/-- One invocation of `AudioStreamer.scheduleNextBuffer` (`audio-streamer.ts`
lines 78-107), observed at AudioContext time `now`. Returns the new state
and the scheduled start time `max(now, nextTime)` of the dequeued buffer
(`none` when the queue was empty, in which case the code clears `isPlaying`
and emits `complete`). A buffer's duration is its sample count divided by
the sample rate. The recursive `source.onended` re-invocation is driven
externally: each element of the time list fed to `scheduleRun` below is one
invocation. -/
def scheduleNextBuffer (s : StreamerState) (now : ℚ) : StreamerState × Option ℚ :=
  match s.queue with
  | [] => ({ s with isPlaying := false }, none)
  | buffer :: rest =>
      let startTime := max now s.nextTime
      ({ s with queue := rest, isPlaying := true,
                nextTime := startTime + (buffer.length : ℚ) / s.sampleRate },
       some startTime)

/-- `AudioStreamer.addPCM16` (`audio-streamer.ts` lines 44-76): decode the
base64 chunk, reinterpret it as int16, normalize each sample by dividing by
32768, enqueue the resulting buffer, and lazily start scheduling when not
already playing. There is no try/catch in the source: a decoding throw is
the `Except.error`, and it propagates before any instance field is mutated
(both `atob` and the `Int16Array` construction precede every mutation of
`this`), so on error the caller's state `s` is unchanged. The RMS volume
emission (lines 59-65) reads only locals and is omitted. -/
def addPCM16 (s : StreamerState) (now : ℚ) (base64Data : String) :
    Except String (StreamerState × Option ℚ) :=
  match atob base64Data with
  | Except.error e => Except.error e
  | Except.ok bytes =>
      match bytesToInt16 bytes with
      | Except.error e => Except.error e
      | Except.ok int16Data =>
          let float32Data := int16Data.map PCM.dequantizeSample
          let s1 := { s with queue := s.queue ++ [float32Data] }
          if s1.isPlaying then Except.ok (s1, none)
          else Except.ok (scheduleNextBuffer s1 now)

/-- Iterated scheduling: invoke `scheduleNextBuffer` once per observation
time in the list, collecting the scheduled start times. -/
def scheduleRun (s : StreamerState) : List ℚ → List ℚ
  | [] => []
  | now :: rest =>
      match scheduleNextBuffer s now with
      | (s', some start) => start :: scheduleRun s' rest
      | (s', none) => scheduleRun s' rest

/-- Written from the spec's words, for comparison with the code-derived
scheduler: with segment durations `d1..dn` and first start `t`, segment `k`
starts exactly when segment `k-1` ends (back-to-back, no gap, no overlap). -/
def specGaplessStarts (t : ℚ) : List ℚ → List ℚ
  | [] => []
  | d :: rest => t :: specGaplessStarts (t + d) rest

/-- The idealized event timing of `source.onended`: every scheduling
invocation after the first is observed no later than the moment the
previously scheduled buffer ends. `promptAfter nt ts ds` says the
invocation times `ts` for segments with durations `ds` each arrive no later
than the accumulated end time, starting from end time `nt`. -/
def promptAfter : ℚ → List ℚ → List ℚ → Prop
  | _, [], [] => True
  | nt, t :: ts, d :: ds => t ≤ nt ∧ promptAfter (nt + d) ts ds
  | _, _, _ => False

/-- Durations of the queued buffers of a streamer state. -/
def queueDurations (s : StreamerState) : List ℚ :=
  s.queue.map (fun b => (b.length : ℚ) / s.sampleRate)

theorem scheduleRun_prompt (ts : List ℚ) :
    ∀ s : StreamerState, promptAfter s.nextTime ts (queueDurations s) →
      scheduleRun s ts = specGaplessStarts s.nextTime (queueDurations s) := by
  induction ts with
  | nil =>
      intro s hp
      cases hq : s.queue with
      | nil => simp [scheduleRun, queueDurations, hq, specGaplessStarts]
      | cons b rest =>
          exfalso
          rw [queueDurations, hq] at hp
          simp [promptAfter] at hp
  | cons t ts ih =>
      intro s hp
      cases hq : s.queue with
      | nil =>
          exfalso
          rw [queueDurations, hq] at hp
          simp [promptAfter] at hp
      | cons b rest =>
          rw [queueDurations, hq] at hp
          simp only [List.map_cons, promptAfter] at hp
          obtain ⟨hle, hp'⟩ := hp
          have hmax : max t s.nextTime = s.nextTime := max_eq_right hle
          rw [scheduleRun, scheduleNextBuffer, hq]
          simp only [hmax]
          rw [queueDurations, hq, List.map_cons, specGaplessStarts]
          congr 1
          have := ih { s with queue := rest, isPlaying := true,
                              nextTime := s.nextTime + (b.length : ℚ) / s.sampleRate }
            (by simpa [queueDurations] using hp')
          simpa [queueDurations] using this

/-- C4: for buffers `b1 :: bs` enqueued while nothing was previously playing
(fresh state: `nextTime = 0`, not playing), with the first scheduling
invocation at time `t1 ≥ 0` and every later invocation arriving no later
than the previous buffer's end (the idealized `onended` timing), the
scheduled start times are exactly back-to-back: segment 1 starts at `t1`
("now"), and segment `k` starts at the start of segment `k-1` plus the
duration of segment `k-1`. -/
theorem gapless_playback (rate t1 : ℚ) (b1 : List ℚ) (bs : List (List ℚ))
    (ts : List ℚ) (h0 : 0 ≤ t1)
    (hp : promptAfter (t1 + (b1.length : ℚ) / rate) ts
      (bs.map (fun b => (b.length : ℚ) / rate))) :
    scheduleRun ⟨b1 :: bs, false, 0, rate⟩ (t1 :: ts) =
      specGaplessStarts t1 ((b1 :: bs).map (fun b => (b.length : ℚ) / rate)) := by
  have hmax : max t1 (0 : ℚ) = t1 := max_eq_left h0
  rw [scheduleRun, scheduleNextBuffer]
  simp only [hmax]
  rw [List.map_cons, specGaplessStarts]
  congr 1
  have := scheduleRun_prompt ts
    { queue := bs, isPlaying := true, nextTime := t1 + (b1.length : ℚ) / rate,
      sampleRate := rate }
    (by simpa [queueDurations] using hp)
  simpa [queueDurations] using this

/-- C4 witness: two buffers of one and two samples at a sample rate of 1,
first scheduled at time 0 and the second invocation arriving at time 1
(exactly when the first buffer ends), are scheduled at starts 0 and 1. -/
theorem gapless_playback_witness :
    (0 : ℚ) ≤ 0 ∧
    promptAfter (0 + ((([0] : List ℚ).length : ℚ) / 1)) [1]
      ([[0, 0]].map (fun b : List ℚ => (b.length : ℚ) / 1)) ∧
    scheduleRun ⟨[[0], [0, 0]], false, 0, 1⟩ [0, 1] =
      specGaplessStarts 0 (([[0], [0, 0]] : List (List ℚ)).map
        (fun b => (b.length : ℚ) / 1)) := by
  refine ⟨le_refl 0, ?_, ?_⟩
  · simp [promptAfter]
  · exact gapless_playback 1 0 [0] [[0, 0]] [1] (le_refl 0) (by simp [promptAfter])

/-- C7 (counterexample): `addPCM16` throws to its caller on malformed input
rather than catching inside: on the non-base64 chunk `"!"` the call yields
the `InvalidCharacterError` thrown by `atob`, and on `"AA=="` (which decodes
to a single byte, an odd PCM16 length) the `RangeError` thrown by the
`Int16Array` construction. -/
theorem addPCM16_throws_counterexample :
    addPCM16 ⟨[], false, 0, 24000⟩ 0 "!" = Except.error "InvalidCharacterError" ∧
    addPCM16 ⟨[], false, 0, 24000⟩ 0 "AA==" = Except.error "RangeError" := by
  constructor <;> rfl

/-- C7 (amended): for every malformed chunk — base64 decoding fails, or the
decoded byte length is odd — `addPCM16` propagates the decoding error to its
caller (there is no catch inside the call); the offending chunk is never
enqueued and the instance state is unchanged, since the throw precedes every
mutation of the instance, so previously queued chunks play unaffected. -/
theorem addPCM16_malformed_propagates (s : StreamerState) (now : ℚ)
    (b64 : String) :
    (∀ e, atob b64 = Except.error e → addPCM16 s now b64 = Except.error e) ∧
    (∀ bytes, atob b64 = Except.ok bytes → bytes.length % 2 = 1 →
      addPCM16 s now b64 = Except.error "RangeError") := by
  constructor
  · intro e he
    simp [addPCM16, he]
  · intro bytes hb hodd
    have hne : bytes.length % 2 ≠ 0 := by omega
    simp [addPCM16, hb, bytesToInt16, hne]

/-- C7 witness: the amended theorem applied at the chunks `"!"` and `"AA=="`
against a streamer that is playing and has a queued buffer. -/
theorem addPCM16_malformed_propagates_witness :
    atob "!" = Except.error "InvalidCharacterError" ∧
    addPCM16 ⟨[[1]], true, 7, 24000⟩ 0 "!" =
      Except.error "InvalidCharacterError" ∧
    atob "AA==" = Except.ok [0] ∧ ([0] : List ℕ).length % 2 = 1 ∧
    addPCM16 ⟨[[1]], true, 7, 24000⟩ 0 "AA==" = Except.error "RangeError" := by
  refine ⟨by rfl, (addPCM16_malformed_propagates _ _ _).1 _ (by rfl), by rfl,
    by rfl, (addPCM16_malformed_propagates _ _ _).2 [0] (by rfl) (by rfl)⟩

end Streamer

namespace Client

/-- The world of duplex sessions created through the SDK (`genAI.live.connect`):
`nextId` numbers the handles handed out, and `openIds` lists the ids of the
sessions whose underlying connection is currently open (a session leaves it
only through its own `close()`). -/
structure SessionWorld where
  nextId : ℕ
  openIds : List ℕ

/-- The session-ownership fields of a `LiveClient` instance
(`live-client.ts` lines 30-32): the held session handle and the
`isConnected` flag. -/
structure ClientState where
  session : Option ℕ
  isConnected : Bool

/-- `LiveClient.connect` (`live-client.ts` lines 54-94), successful path: the
SDK creates and opens a new session, which is assigned to `this.session`
(the `onopen` callback sets `isConnected`). The method never reads or closes
a previously held session. -/
def connect (_ : ClientState) (w : SessionWorld) : ClientState × SessionWorld :=
  ({ session := some w.nextId, isConnected := true },
   { nextId := w.nextId + 1, openIds := w.nextId :: w.openIds })

/-- `LiveClient.disconnect` (`live-client.ts` lines 175-181): close the held
session if any, clear the handle, clear `isConnected`. -/
def disconnect (c : ClientState) (w : SessionWorld) : ClientState × SessionWorld :=
  match c.session with
  | some i => ({ session := none, isConnected := false },
               { w with openIds := w.openIds.erase i })
  | none => ({ c with isConnected := false }, w)

/-- C8 (counterexample): a fresh client connected once (holding open session
0) and then connected again ends with BOTH sessions 0 and 1 open — `connect`
does not tear down the prior session before establishing the new one. -/
theorem connect_twice_counterexample :
    (connect (connect ⟨none, false⟩ ⟨0, []⟩).1
      (connect ⟨none, false⟩ ⟨0, []⟩).2).2.openIds = [1, 0] ∧
    (connect (connect ⟨none, false⟩ ⟨0, []⟩).1
      (connect ⟨none, false⟩ ⟨0, []⟩).2).1.session = some 1 ∧
    (connect ⟨none, false⟩ ⟨0, []⟩).1.session = some 0 := by
  refine ⟨rfl, rfl, rfl⟩

/-- C8 (amended): calling `connect` while the client holds an open session
does NOT first tear down the prior session: the prior session stays open in
the session world while the client's reference is replaced by the new open
session. Single-session discipline is the caller's: an explicit `disconnect`
followed by `connect` does close the prior session before the new one is
established (as the controller does on its mode switch). -/
theorem connect_leaves_prior_open (c : ClientState) (w : SessionWorld) (i : ℕ)
    (hc : c.session = some i) (hi : i ∈ w.openIds) (hnodup : w.openIds.Nodup)
    (hlt : i < w.nextId) :
    i ∈ (connect c w).2.openIds ∧
    (connect c w).1.session = some w.nextId ∧
    w.nextId ∈ (connect c w).2.openIds ∧
    i ∉ (connect (disconnect c w).1 (disconnect c w).2).2.openIds := by
  refine ⟨List.mem_cons_of_mem _ hi, rfl, List.mem_cons_self _ _, ?_⟩
  have hd : disconnect c w =
      (⟨none, false⟩, { w with openIds := w.openIds.erase i }) := by
    rw [disconnect, hc]
  rw [hd]
  show i ∉ w.nextId :: w.openIds.erase i
  intro hmem
  rcases List.mem_cons.mp hmem with h | h
  · omega
  · exact hnodup.not_mem_erase h

/-- C8 witness: the amended theorem applied to a client holding open session
0 in a world where only session 0 is open. -/
theorem connect_leaves_prior_open_witness :
    (⟨some 0, true⟩ : ClientState).session = some 0 ∧ 0 ∈ [0] ∧
    ([0] : List ℕ).Nodup ∧ 0 < 1 ∧
    (0 ∈ (connect ⟨some 0, true⟩ ⟨1, [0]⟩).2.openIds ∧
     (connect ⟨some 0, true⟩ ⟨1, [0]⟩).1.session = some 1 ∧
     1 ∈ (connect ⟨some 0, true⟩ ⟨1, [0]⟩).2.openIds ∧
     0 ∉ (connect (disconnect ⟨some 0, true⟩ ⟨1, [0]⟩).1
       (disconnect ⟨some 0, true⟩ ⟨1, [0]⟩).2).2.openIds) :=
  ⟨rfl, by decide, by decide, by decide,
   connect_leaves_prior_open ⟨some 0, true⟩ ⟨1, [0]⟩ 0 rfl (by decide)
     (by decide) (by decide)⟩

/-- Duck-typed JavaScript values as they reach `handleMessage`
(`live-client.ts` line 96, parameter of type `unknown`): the handler
inspects the value dynamically, so the embedding carries the full range of
shapes, including `undefined` and `null`. -/
inductive JsValue where
  | undef : JsValue
  | null : JsValue
  | bool : Bool → JsValue
  | num : ℚ → JsValue
  | str : String → JsValue
  | arr : List JsValue → JsValue
  | obj : List (String × JsValue) → JsValue

/-- JavaScript truthiness. -/
def truthy : JsValue → Bool
  | JsValue.undef => false
  | JsValue.null => false
  | JsValue.bool b => b
  | JsValue.num q => !(q == 0)
  | JsValue.str s => !(s == "")
  | JsValue.arr _ => true
  | JsValue.obj _ => true

/-- JavaScript member access `v.name`: throws a `TypeError` on `null` or
`undefined`, yields the property on an object (or `undefined` when absent),
and yields `undefined` on other values (primitives box; none of the accessed
property names collides with a built-in). -/
def getField : JsValue → String → Except String JsValue
  | JsValue.undef, _ => Except.error "TypeError"
  | JsValue.null, _ => Except.error "TypeError"
  | JsValue.obj fields, name => Except.ok ((fields.lookup name).getD JsValue.undef)
  | _, _ => Except.ok JsValue.undef

/-- Truthiness of a member access, `false` when the access itself throws. -/
def fieldTruthy (v : JsValue) (name : String) : Bool :=
  match getField v name with
  | Except.ok w => truthy w
  | Except.error _ => false

/-- The events `handleMessage` can emit (`live-client.ts` lines 115-139);
`audio` and `content` carry the accessed payload value. -/
inductive ClientEv where
  | setupcomplete : ClientEv
  | interrupted : ClientEv
  | turncomplete : ClientEv
  | audio : JsValue → ClientEv
  | content : JsValue → ClientEv

/-- The condition `part.inlineData?.mimeType?.startsWith("audio/")`
(`live-client.ts` line 128): the optional chains short-circuit to
`undefined` (falsy) on `null`/`undefined`, and calling `startsWith` on a
non-string `mimeType` throws. -/
def audioCond (inlineData : JsValue) : Except String Bool :=
  match inlineData with
  | JsValue.undef => Except.ok false
  | JsValue.null => Except.ok false
  | v =>
      match getField v "mimeType" with
      | Except.error e => Except.error e
      | Except.ok JsValue.undef => Except.ok false
      | Except.ok JsValue.null => Except.ok false
      | Except.ok (JsValue.str s) => Except.ok (s.startsWith "audio/")
      | Except.ok _ => Except.error "TypeError"

/-- One iteration of the `for (const part of parts)` body
(`live-client.ts` lines 127-134). -/
def processPart (part : JsValue) : Except String (List ClientEv) :=
  match getField part "inlineData" with
  | Except.error e => Except.error e
  | Except.ok inlineData =>
      match audioCond inlineData with
      | Except.error e => Except.error e
      | Except.ok isAudio =>
          match (if isAudio then
                   match getField inlineData "data" with
                   | Except.error e => Except.error e
                   | Except.ok d => Except.ok [ClientEv.audio d]
                 else Except.ok []) with
          | Except.error e => Except.error e
          | Except.ok audioEvs =>
              match getField part "text" with
              | Except.error e => Except.error e
              | Except.ok t =>
                  Except.ok (audioEvs ++
                    (if truthy t then [ClientEv.content t] else []))

/-- The whole `for (const part of ...)` loop over the iterated elements. -/
def processParts : List JsValue → Except String (List ClientEv)
  | [] => Except.ok []
  | p :: rest =>
      match processPart p with
      | Except.error e => Except.error e
      | Except.ok evs =>
          match processParts rest with
          | Except.error e => Except.error e
          | Except.ok evsRest => Except.ok (evs ++ evsRest)

/-- JavaScript `for...of` iterability: arrays iterate their elements,
strings iterate their characters (as one-character strings); other values
reaching the loop (the code only iterates a truthy `parts`) throw a
`TypeError`. -/
def iterateParts (parts : JsValue) : Except String (List JsValue) :=
  match parts with
  | JsValue.arr xs => Except.ok xs
  | JsValue.str s => Except.ok (s.data.map (fun c => JsValue.str (String.singleton c)))
  | _ => Except.error "TypeError"

/-- `LiveClient.handleMessage` (`live-client.ts` lines 96-141): route an
inbound protocol message. `msg.setupComplete` truthy emits `setupcomplete`
and returns; a truthy `msg.serverContent` is inspected for `interrupted`
(early return), then `modelTurn?.parts` is iterated emitting `audio` and
`content` per part, then a truthy `turnComplete` emits `turncomplete`.
Member accesses on `null`/`undefined` throw, which `Except.error` models —
the method itself contains no try/catch. -/
def handleMessage (message : JsValue) : Except String (List ClientEv) :=
  match getField message "setupComplete" with
  | Except.error e => Except.error e
  | Except.ok sc =>
  if truthy sc then Except.ok [ClientEv.setupcomplete] else
  match getField message "serverContent" with
  | Except.error e => Except.error e
  | Except.ok srv =>
  if !truthy srv then Except.ok [] else
  match getField srv "interrupted" with
  | Except.error e => Except.error e
  | Except.ok intr =>
  if truthy intr then Except.ok [ClientEv.interrupted] else
  match (match getField srv "modelTurn" with
         | Except.error e => Except.error e
         | Except.ok JsValue.undef => Except.ok JsValue.undef
         | Except.ok JsValue.null => Except.ok JsValue.undef
         | Except.ok mt => getField mt "parts") with
  | Except.error e => Except.error e
  | Except.ok parts =>
  match (if truthy parts then
           match iterateParts parts with
           | Except.error e => Except.error e
           | Except.ok items => processParts items
         else Except.ok []) with
  | Except.error e => Except.error e
  | Except.ok partEvs =>
  match getField srv "turnComplete" with
  | Except.error e => Except.error e
  | Except.ok tc =>
      Except.ok (partEvs ++ (if truthy tc then [ClientEv.turncomplete] else []))

/-- C9 (counterexample): a `null` inbound message makes `handleMessage`
throw a `TypeError` (the property access `msg.setupComplete` on `null`),
contradicting "completes without throwing" for null values; `undefined`
behaves the same. -/
theorem handleMessage_null_counterexample :
    handleMessage JsValue.null = Except.error "TypeError" ∧
    handleMessage JsValue.undef = Except.error "TypeError" := by
  constructor <;> rfl

/-- C9 (amended): for every inbound message that is not `null`/`undefined`
and whose `setupComplete` and `serverContent` members are falsy — which
covers all non-object primitives, arrays, and objects missing all expected
fields — `handleMessage` completes without throwing and emits no event; a
`null` or `undefined` message, however, throws a `TypeError`. -/
theorem handleMessage_unrecognized_ignored (msg : JsValue)
    (h0 : msg ≠ JsValue.null) (h1 : msg ≠ JsValue.undef)
    (hsc : fieldTruthy msg "setupComplete" = false)
    (hsrv : fieldTruthy msg "serverContent" = false) :
    handleMessage msg = Except.ok [] := by
  cases msg with
  | undef => exact absurd rfl h1
  | null => exact absurd rfl h0
  | bool b =>
      simp only [fieldTruthy, getField] at hsc
      simp [handleMessage, getField, hsc]
  | num q => simp [handleMessage, getField, truthy]
  | str s =>
      simp only [fieldTruthy, getField] at hsc
      simp [handleMessage, getField, hsc]
  | arr xs => simp [handleMessage, getField, truthy]
  | obj fields =>
      simp only [fieldTruthy, getField] at hsc hsrv
      simp [handleMessage, getField, hsc, hsrv]

/-- C9 witness: the amended theorem applied to the object
`{"foo": "bar"}`, which has none of the expected fields. -/
theorem handleMessage_unrecognized_witness :
    (JsValue.obj [("foo", JsValue.str "bar")] ≠ JsValue.null) ∧
    (JsValue.obj [("foo", JsValue.str "bar")] ≠ JsValue.undef) ∧
    fieldTruthy (JsValue.obj [("foo", JsValue.str "bar")]) "setupComplete" = false ∧
    fieldTruthy (JsValue.obj [("foo", JsValue.str "bar")]) "serverContent" = false ∧
    handleMessage (JsValue.obj [("foo", JsValue.str "bar")]) = Except.ok [] :=
  ⟨by simp, by simp,
   by rfl, by rfl,
   handleMessage_unrecognized_ignored _ (by simp) (by simp) (by rfl) (by rfl)⟩

end Client

namespace Recorder

/-- The mutable fields of an `AudioRecorder` instance
(`audio-recorder.ts` lines 11-16): the audio context, media stream, source
and processor nodes (modelled by whether each is held), and the
`isRecording` flag. -/
structure RecorderState where
  hasAudioContext : Bool
  hasMediaStream : Bool
  hasSourceNode : Bool
  hasProcessorNode : Bool
  isRecording : Bool

/-- The externally visible actions of `AudioRecorder.start`. -/
inductive RecorderAct where
  | getUserMedia : RecorderAct
  | createAudioContext : RecorderAct
  | connectNodes : RecorderAct

/-- `AudioRecorder.start` (`audio-recorder.ts` lines 38-91): returns
immediately while already recording (line 39); otherwise requests the
microphone (`grant = false` models the rejected `getUserMedia` promise,
logged and rethrown at lines 87-90), builds the audio context, source and
processor nodes, connects them, and sets `isRecording`. -/
def start (s : RecorderState) (grant : Bool) :
    Except String (RecorderState × List RecorderAct) :=
  if s.isRecording then Except.ok (s, [])
  else if grant then
    Except.ok (⟨true, true, true, true, true⟩,
               [RecorderAct.getUserMedia, RecorderAct.createAudioContext,
                RecorderAct.connectNodes])
  else Except.error "PermissionDenied"

/-- C10: while `isRecording` is true, `start()` is a silent no-op — it
returns without requesting microphone access (no actions), without
replacing the existing audio context, stream, or nodes (the state is
returned unchanged), and without raising an error; consequently a `start`
after any successful `start` is a no-op (`start;start` is `start`). -/
theorem start_noop_when_recording (s : RecorderState) (g : Bool) :
    (s.isRecording = true → start s g = Except.ok (s, [])) ∧
    (∀ s1 acts g2, start s g = Except.ok (s1, acts) →
      start s1 g2 = Except.ok (s1, [])) := by
  constructor
  · intro h
    simp [start, h]
  · intro s1 acts g2 hok
    by_cases h : s.isRecording
    · simp [start, h] at hok
      simp [start, ← hok.1, h]
    · by_cases hg : g
      · simp [start, h, hg] at hok
        simp [start, ← hok.1]
      · simp [start, h, hg] at hok

/-- C10 witness: the theorem applied to a recorder that is already
recording (so the call changes nothing even with the grant refused). -/
theorem start_noop_when_recording_witness :
    (⟨true, true, true, true, true⟩ : RecorderState).isRecording = true ∧
    start ⟨true, true, true, true, true⟩ false =
      Except.ok (⟨true, true, true, true, true⟩, []) :=
  ⟨rfl, (start_noop_when_recording ⟨true, true, true, true, true⟩ false).1 rfl⟩

end Recorder

namespace Controller

/-- JavaScript's `\s` character class (also the set `String.prototype.trim`
removes). -/
def isJsSpace (c : Char) : Bool :=
  c == ' ' || c == '\t' || c == '\n' || c == '\r' || c == '\x0b' ||
  c == '\x0c' || c == '\u00a0' || c == '\u1680' ||
  (0x2000 ≤ c.toNat && c.toNat ≤ 0x200a) || c == '\u2028' || c == '\u2029' ||
  c == '\u202f' || c == '\u205f' || c == '\u3000' || c == '\ufeff'

/-- The capture group `((?:[^"\\]|\\.)*)` of the memory regex
(`live-capture.tsx` line 283), matched greedily up to the closing quote:
consume characters, treating a backslash and its successor as one escaped
item; the raw matched text is returned, and the whole attempt fails when
the input ends before an unescaped closing quote (each alternative is
disjoint on its first character, so the greedy backtracking search is this
deterministic scan). -/
def scanMemoryGroup : List Char → Option (List Char)
  | [] => none
  | '"' :: _ => some []
  | '\\' :: c :: rest => (scanMemoryGroup rest).map (fun g => '\\' :: c :: g)
  | ['\\'] => none
  | c :: rest => (scanMemoryGroup rest).map (fun g => c :: g)

/-- The memory regex `"memory"\s*:\s*"((?:[^"\\]|\\.)*)"` anchored at the
head of the list: the literal `"memory"`, optional whitespace, `:`,
optional whitespace, an opening quote, then the capture group. -/
def matchMemoryAt (l : List Char) : Option (List Char) :=
  match l with
  | '"' :: 'm' :: 'e' :: 'm' :: 'o' :: 'r' :: 'y' :: '"' :: rest =>
      match rest.dropWhile isJsSpace with
      | ':' :: rest2 =>
          match rest2.dropWhile isJsSpace with
          | '"' :: rest3 => scanMemoryGroup rest3
          | _ => none
      | _ => none
  | _ => none

/-- `fullText.match(memoryRegex)` with a non-global regex: the capture
group of the FIRST position at which the pattern matches, scanning left to
right. -/
def findMemoryMatch : List Char → Option (List Char)
  | [] => none
  | c :: rest =>
      match matchMemoryAt (c :: rest) with
      | some g => some g
      | none => findMemoryMatch rest

/-- The pattern `"memory"\s*:` of the fallback's
`.replace(/"memory"\s*:/g, "")` anchored at the head; on success returns
the remainder after the match. -/
def matchMemoryKeyAt (l : List Char) : Option (List Char) :=
  match l with
  | '"' :: 'm' :: 'e' :: 'm' :: 'o' :: 'r' :: 'y' :: '"' :: rest =>
      match rest.dropWhile isJsSpace with
      | ':' :: rest2 => some rest2
      | _ => none
  | _ => none

/-- Global replacement of `"memory"\s*:` by the empty string: leftmost
match first, continuing after each match (fuel bounds the scan by the input
length; every step consumes at least one character). -/
def stripMemoryKey : ℕ → List Char → List Char
  | 0, l => l
  | _, [] => []
  | fuel + 1, c :: rest =>
      match matchMemoryKeyAt (c :: rest) with
      | some remainder => stripMemoryKey fuel remainder
      | none => c :: stripMemoryKey fuel rest

/-- JavaScript `String.prototype.trim`. -/
def jsTrim (l : List Char) : List Char :=
  ((l.dropWhile isJsSpace).reverse.dropWhile isJsSpace).reverse

/-- Global replacement of a literal pattern (`String.prototype.replace`
with a `/g` literal regex): leftmost match first, continuing after each
replacement; fuel bounds the scan by the input length. -/
def replaceAll (fuel : ℕ) (pat repl : List Char) (l : List Char) : List Char :=
  match fuel, l with
  | 0, l => l
  | _, [] => []
  | fuel + 1, c :: rest =>
      if pat.length ≠ 0 ∧ List.take pat.length (c :: rest) = pat then
        repl ++ replaceAll fuel pat repl (List.drop pat.length (c :: rest))
      else c :: replaceAll fuel pat repl rest

/-- The fallback cleaning of the content handler (`live-capture.tsx` lines
294-299): remove ```json fences and backtick runs, drop `"memory"\s*:`
keys, blank out the JSON structural characters `{`, `}`, `"`, and trim. -/
def cleanTranscript (fullText : String) : String :=
  let l0 := fullText.data
  let l1 := replaceAll l0.length ("```json".data) [] l0
  let l2 := replaceAll l1.length ("```".data) [] l1
  let l3 := stripMemoryKey l2.length l2
  let l4 := l3.map (fun c =>
    if c == '\x7b' || c == '\x7d' || c == '"' then ' ' else c)
  String.mk (jsTrim l4)

/-- The controller's transcript state during `recording`
(`live-capture.tsx` lines 63-64, 76): the accumulated raw buffer
(`transcriptBufferRef`), the extracted memory (`transcribedMemoryRef`), and
whether `capturedObjectRef` is non-null. -/
structure TranscriptState where
  transcriptBuffer : String
  transcribedMemory : String
  captured : Bool

/-- Second half of the content handler (`live-capture.tsx` lines 290-308):
when the structured match is absent (or its group empty, since
`memoryMatch && memoryMatch[1]` is falsy on an empty group), clean the full
buffer and overwrite the transcript with it when non-empty. -/
def fallbackUpdate (st : TranscriptState) (fullText : String) : TranscriptState :=
  let cleanText := cleanTranscript fullText
  if 0 < cleanText.length then { st with transcribedMemory := cleanText } else st

/-- The `content` event handler registered in `startLiveCapture`
(`live-capture.tsx` lines 274-310): while an object is captured, append the
event text to the accumulating buffer, then either take the first
structured `"memory"` match of the whole buffer (when its group is
non-empty) or fall back to the cleaned plain text. -/
def onContent (st : TranscriptState) (text : String) : TranscriptState :=
  if st.captured then
    let fullText := st.transcriptBuffer ++ text
    let base := { st with transcriptBuffer := fullText }
    match findMemoryMatch fullText.data with
    | some g =>
        if g.isEmpty then fallbackUpdate base fullText
        else { base with transcribedMemory := String.mk g }
    | none => fallbackUpdate base fullText
  else st

/-- The claim's inbound content-event sequence
`["...", '{"memory":"a"}', '{"memory":"ab"}']`. -/
def claimEvents : List String :=
  ["...", "\x7b\"memory\":\"a\"\x7d", "\x7b\"memory\":\"ab\"\x7d"]

/-- C1 (counterexample): delivering the claim's content events while an
object is captured leaves the transcript equal to `"a"`, NOT `"ab"`: the
handler accumulates all text into one buffer and `String.match` with a
non-global regex returns the FIRST `"memory"` match of that buffer, so the
earliest extraction persists. -/
theorem transcript_final_not_ab :
    (claimEvents.foldl onContent ⟨"", "", true⟩).transcribedMemory = "a" ∧
    (claimEvents.foldl onContent ⟨"", "", true⟩).transcribedMemory ≠ "ab" := by
  exact ⟨by rfl, by decide⟩

/-- C1 (amended): for the inbound content events
`["...", '{"memory":"a"}', '{"memory":"ab"}']` delivered while an object is
captured, the final transcript buffer equals `"a"` — extraction scans the
accumulated buffer and keeps the FIRST structured match (earliest-write
wins), never a concatenation and never the latest value. -/
theorem transcript_first_match_wins :
    (claimEvents.foldl onContent ⟨"", "", true⟩).transcribedMemory = "a" ∧
    (claimEvents.foldl onContent ⟨"", "", true⟩).transcriptBuffer =
      "...\x7b\"memory\":\"a\"\x7d\x7b\"memory\":\"ab\"\x7d" := by
  constructor <;> rfl

/-- The capture-workflow fields the frame-interval callback and the
analysis continuation touch (`live-capture.tsx` lines 76-79): the captured
object (full frame and description), the synchronously set
`processingCapture` flag, and the stable-frame counter. `pendingFrame`
models the full-resolution frame held by the in-flight
`generateDescription` promise (`some` exactly while a call is
outstanding). -/
structure CaptureState where
  capturedObject : Option (String × String)
  processingCapture : Bool
  stableFrameCount : ℕ
  pendingFrame : Option String

/-- The interleaved events during `scanning`/`recording`: a frame-interval
tick (video readiness, stability of this frame, and the full-resolution
frame grab result), or the settlement of an in-flight
`generateDescription` call (`none` both for a null description and for a
rejected promise, whose handlers only clear the flag). -/
inductive CaptureEv where
  | tick (videoReady stable : Bool) (fullFrame : Option String) : CaptureEv
  | resolve (description : Option String) : CaptureEv

/-- `STABLE_FRAMES_REQUIRED` (`live-capture.tsx` line 19). -/
def STABLE_FRAMES_REQUIRED : ℕ := 2

/-- The frame-interval callback (`live-capture.tsx` lines 355-443): bail
out when the video is not ready; update the stable-frame counter; when no
object is captured and no capture is processing and the counter has reached
the threshold, set `processingCapture` synchronously, reset the counter,
grab the full frame and start `generateDescription` (the returned `Bool`
says whether this tick invoked it); a failed frame grab clears the flag at
once. The small-frame send (lines 373-381) touches none of the modelled
fields. -/
def frameTick (s : CaptureState) (videoReady stable : Bool)
    (fullFrame : Option String) : CaptureState × Bool :=
  if !videoReady then (s, false)
  else
    let sfc := if stable then s.stableFrameCount + 1 else 0
    let s1 := { s with stableFrameCount := sfc }
    if s1.capturedObject.isNone && !s1.processingCapture then
      if STABLE_FRAMES_REQUIRED ≤ sfc then
        match fullFrame with
        | some frame =>
            ({ s1 with processingCapture := true, stableFrameCount := 0,
                       pendingFrame := some frame }, true)
        | none =>
            ({ s1 with processingCapture := false, stableFrameCount := 0 },
             false)
      else (s1, false)
    else (s1, false)

/-- The `generateDescription` continuation (`live-capture.tsx` lines
398-437): with a usable description the captured object is set from the
frame the triggering tick grabbed (the video-stream stop, capture tone,
state switch and session reconnect do not touch the modelled fields); in
every case — including the `.catch` — `processingCapture` is cleared. A
settlement without an outstanding call is a no-op. -/
def resolveAnalysis (s : CaptureState) (description : Option String) :
    CaptureState :=
  match s.pendingFrame with
  | none => s
  | some frame =>
      match description with
      | some d => { s with capturedObject := some (frame, d),
                           processingCapture := false, pendingFrame := none }
      | none => { s with processingCapture := false, pendingFrame := none }

def stepCapture (s : CaptureState) : CaptureEv → CaptureState
  | CaptureEv.tick v st f => (frameTick s v st f).1
  | CaptureEv.resolve d => resolveAnalysis s d

def runCapture : CaptureState → List CaptureEv → CaptureState
  | s, [] => s
  | s, e :: rest => runCapture (stepCapture s e) rest

/-- Number of null-to-non-null transitions of `capturedObject` along a run. -/
def captureTransitions : CaptureState → List CaptureEv → ℕ
  | _, [] => 0
  | s, e :: rest =>
      (if s.capturedObject.isNone && (stepCapture s e).capturedObject.isSome
       then 1 else 0) + captureTransitions (stepCapture s e) rest

/-- The per-run invariant: an analysis call is outstanding only while the
`processingCapture` flag is set and no object has been captured yet. -/
def CaptureInv (s : CaptureState) : Prop :=
  s.pendingFrame.isSome = true →
    s.processingCapture = true ∧ s.capturedObject = none

/-- `startLiveCapture`'s per-run reset (`live-capture.tsx` lines 240-243). -/
def initCapture : CaptureState :=
  ⟨none, false, 0, none⟩

theorem frameTick_capturedObject (s : CaptureState) (v st : Bool)
    (f : Option String) :
    (frameTick s v st f).1.capturedObject = s.capturedObject := by
  unfold frameTick
  cases v
  · rfl
  · dsimp only
    split_ifs <;> first | rfl | (cases f <;> rfl)

theorem frameTick_no_invoke_of_captured (s : CaptureState) (v st : Bool)
    (f : Option String) (h : s.capturedObject.isSome = true) :
    (frameTick s v st f).2 = false := by
  unfold frameTick
  have hn : s.capturedObject.isNone = false := by
    cases hc : s.capturedObject <;> simp [hc] at h ⊢
  cases v <;> simp [hn]

theorem stepCapture_inv (s : CaptureState) (e : CaptureEv)
    (h : CaptureInv s) : CaptureInv (stepCapture s e) := by
  cases e with
  | tick v st f =>
      show CaptureInv (frameTick s v st f).1
      rcases s with ⟨co, pc, sfc, pf⟩
      unfold frameTick CaptureInv at *
      cases v <;> cases st <;> rcases co with _ | co <;> cases pc <;>
        rcases pf with _ | pf <;> rcases f with _ | fr <;>
        simp_all <;> split_ifs <;> simp_all
  | resolve d =>
      show CaptureInv (resolveAnalysis s d)
      unfold resolveAnalysis
      cases hpf : s.pendingFrame with
      | none => simpa using h
      | some fr => cases d <;> intro hp <;> simp at hp

theorem stepCapture_some (s : CaptureState) (e : CaptureEv)
    (h : CaptureInv s) (hc : s.capturedObject.isSome = true) :
    (stepCapture s e).capturedObject = s.capturedObject := by
  cases e with
  | tick v st f => exact frameTick_capturedObject s v st f
  | resolve d =>
      show (resolveAnalysis s d).capturedObject = s.capturedObject
      unfold resolveAnalysis
      cases hpf : s.pendingFrame with
      | none => rfl
      | some fr =>
          exfalso
          have := (h (by simp [hpf])).2
          simp [this] at hc

theorem captureTransitions_bound (evs : List CaptureEv) :
    ∀ s : CaptureState, CaptureInv s →
      captureTransitions s evs ≤ (if s.capturedObject.isNone then 1 else 0) := by
  induction evs with
  | nil => intro s _; simp [captureTransitions]
  | cons e rest ih =>
      intro s hinv
      have hinv' := stepCapture_inv s e hinv
      have h2 := ih (stepCapture s e) hinv'
      rw [captureTransitions]
      cases hc : s.capturedObject with
      | some co =>
          have hsome : s.capturedObject.isSome = true := by rw [hc]; rfl
          have hstep := stepCapture_some s e hinv hsome
          rw [hstep, hc] at h2
          simp only [hc, Option.isNone_some, Bool.false_and, if_false,
            Bool.false_eq_true, zero_add] at h2 ⊢
          omega
      | none =>
          cases hc' : (stepCapture s e).capturedObject with
          | some co' =>
              rw [hc'] at h2
              simp only [hc, hc', Option.isNone_none, Option.isSome_some,
                Option.isNone_some, Bool.true_and, if_true, if_false,
                Bool.false_eq_true] at h2 ⊢
              omega
          | none =>
              rw [hc'] at h2
              simp only [hc, hc', Option.isNone_none, Option.isSome_none,
                Bool.true_and, Bool.and_false, if_true, if_false,
                Bool.false_eq_true, zero_add] at h2 ⊢
              omega

/-- C2: over every event interleaving of frame-timer ticks and analysis
settlements within one run (starting from the per-run reset state),
`capturedObject` transitions from null to non-null at most once; and once
`capturedObject` is non-null, no tick invokes the analysis collaborator
`generateDescription` — the synchronous guard
`!capturedObjectRef.current && !processingCaptureRef.current` (with
`processingCapture` set synchronously inside the triggering tick, before
the asynchronous call begins) makes a second capture impossible. -/
theorem at_most_one_capture (evs : List CaptureEv) :
    captureTransitions initCapture evs ≤ 1 ∧
    (∀ s : CaptureState, ∀ v st : Bool, ∀ f : Option String,
      s.capturedObject.isSome = true → (frameTick s v st f).2 = false) := by
  constructor
  · have h := captureTransitions_bound evs initCapture (by intro h; simp [initCapture] at h)
    simpa [initCapture] using h
  · intro s v st f h
    exact frameTick_no_invoke_of_captured s v st f h

/-- C2 witness: a run that ticks to a capture, resolves it, and ticks
again: one transition, and a tick against a captured state invokes no
analysis. -/
theorem at_most_one_capture_witness :
    captureTransitions initCapture
      [CaptureEv.tick true true (some "f"), CaptureEv.tick true true (some "f"),
       CaptureEv.resolve (some "d"), CaptureEv.tick true true (some "g")] ≤ 1 ∧
    ((⟨some ("f", "d"), false, 5, none⟩ : CaptureState).capturedObject.isSome
      = true) ∧
    (frameTick ⟨some ("f", "d"), false, 5, none⟩ true true (some "g")).2
      = false :=
  ⟨(at_most_one_capture _).1, rfl,
   (at_most_one_capture []).2 ⟨some ("f", "d"), false, 5, none⟩ true true
     (some "g") rfl⟩

/-- The live resources the controller owns (`live-capture.tsx` refs, lines
71-75, 175): the scanning-timeout and frame-interval timers, the
microphone recorder (its tracks and audio context), the audio streamer,
the duplex session, and the camera stream. -/
structure LiveResources where
  scanningTimeoutActive : Bool
  frameTimerActive : Bool
  recorderOpen : Bool
  streamerOpen : Bool
  sessionOpen : Bool
  cameraOpen : Bool

/-- Observable controller actions on the collaborators, in program order. -/
inductive ControllerAct where
  | clearTimers : ControllerAct
  | stopRecorder : ControllerAct
  | closeStreamer : ControllerAct
  | disconnectSession : ControllerAct
  | stopCameraTracks : ControllerAct
  | persistInsert : ControllerAct

/-- Modelled from the spec: the body of `stopLiveCapture` in
`src/components/live-capture.tsx` (lines 221-229) is elided in the source.
Spec §5 fixes the cancellation sequence — cancel any pending local timer
first, then stop the audio producer, then close the audio consumer, then
disconnect the duplex session, then release the camera tracks — performed
synchronously in this order (the two superseded controller drafts in the
repository implement exactly this order). Every owned resource is closed
afterwards. -/
def stopLiveCapture (_ : LiveResources) : LiveResources × List ControllerAct :=
  (⟨false, false, false, false, false, false⟩,
   [ControllerAct.clearTimers, ControllerAct.stopRecorder,
    ControllerAct.closeStreamer, ControllerAct.disconnectSession,
    ControllerAct.stopCameraTracks])

/-- `handleDone` (`live-capture.tsx` lines 452-493): without a captured
object it only tears down; with one it transitions to `saving`, tears down
all live resources (`stopLiveCapture(false)`, line 461) and only then
issues the persistence insert (lines 463-475). -/
def handleDone (r : LiveResources) (captured : Bool) :
    LiveResources × List ControllerAct :=
  if captured then
    ((stopLiveCapture r).1, (stopLiveCapture r).2 ++ [ControllerAct.persistInsert])
  else stopLiveCapture r

/-- `handleCancel` (`live-capture.tsx` lines 495-497). -/
def handleCancel (r : LiveResources) : LiveResources × List ControllerAct :=
  stopLiveCapture r

/-- The `catch` block of `startLiveCapture` (`live-capture.tsx` lines
445-449): it only sets the state to `idle` and alerts — no teardown runs. -/
def startLiveCaptureCatch (r : LiveResources) : LiveResources :=
  r

/-- The error path of `startLiveCapture` in which the camera acquisition
(line 252) and the streamer construction (line 263) succeeded before the
session handshake threw: those resources are held when the catch block
runs. -/
def startLiveCaptureConnectFailure (r : LiveResources) : LiveResources :=
  startLiveCaptureCatch { r with cameraOpen := true, streamerOpen := true }

/-- No camera track, microphone track, session handle (or timer or output
device) remains open. -/
def allClosed (r : LiveResources) : Prop :=
  r.recorderOpen = false ∧ r.sessionOpen = false ∧ r.cameraOpen = false ∧
  r.streamerOpen = false ∧ r.frameTimerActive = false ∧
  r.scanningTimeoutActive = false

/-- C3 (counterexample): the error path of `startLiveCapture` — camera
acquired, then the session handshake fails — completes its catch block
with the camera track still open: the claim's "after any done/cancel/error
path completes no camera track ... remains open" fails on the error path,
whose catch performs no teardown. -/
theorem error_path_leaves_camera_open :
    (startLiveCaptureConnectFailure ⟨false, false, false, false, false, false⟩).cameraOpen
      = true ∧
    ¬ allClosed (startLiveCaptureConnectFailure
      ⟨false, false, false, false, false, false⟩) := by
  refine ⟨rfl, ?_⟩
  intro h
  exact absurd h.2.2.1 (by decide)

/-- C3 (amended): on the user `done` action the controller tears down every
live resource — timers, microphone recorder, audio streamer, duplex
session, camera tracks, in that order — strictly before the persistence
insert is issued (the insert is the final action), and after the done and
cancel paths complete no camera track, microphone track, or session handle
remains open. The error path of `startLiveCapture`, however, performs no
teardown in its catch block, so resources acquired before the failure stay
open until a later cancel or unmount. -/
theorem done_teardown_before_persist (r : LiveResources) (captured : Bool) :
    allClosed (handleDone r captured).1 ∧
    allClosed (handleCancel r).1 ∧
    (captured = true →
      (handleDone r captured).2 =
        [ControllerAct.clearTimers, ControllerAct.stopRecorder,
         ControllerAct.closeStreamer, ControllerAct.disconnectSession,
         ControllerAct.stopCameraTracks, ControllerAct.persistInsert]) := by
  refine ⟨?_, ?_, ?_⟩
  · cases captured <;>
      exact ⟨rfl, rfl, rfl, rfl, rfl, rfl⟩
  · exact ⟨rfl, rfl, rfl, rfl, rfl, rfl⟩
  · intro hc
    rw [hc]
    rfl

/-- C3 witness: the amended theorem applied to a fully live resource set
with a captured object. -/
theorem done_teardown_before_persist_witness :
    allClosed (handleDone ⟨true, true, true, true, true, true⟩ true).1 ∧
    allClosed (handleCancel ⟨true, true, true, true, true, true⟩).1 ∧
    (handleDone ⟨true, true, true, true, true, true⟩ true).2 =
      [ControllerAct.clearTimers, ControllerAct.stopRecorder,
       ControllerAct.closeStreamer, ControllerAct.disconnectSession,
       ControllerAct.stopCameraTracks, ControllerAct.persistInsert] :=
  ⟨(done_teardown_before_persist ⟨true, true, true, true, true, true⟩ true).1,
   (done_teardown_before_persist ⟨true, true, true, true, true, true⟩ true).2.1,
   (done_teardown_before_persist ⟨true, true, true, true, true, true⟩ true).2.2 rfl⟩

end Controller
